import Mathlib

/-!
Verification of the inventory movement and ledger consistency engine of the
nexa-flow-erp-server repository, against its natural-language specification.

The TypeScript services and repositories are shallowly embedded as pure Lean
functions. Database tables become functions from string keys to optional rows;
a Prisma transaction callback becomes a pure function returning
`Except Err DB`: on `ok` the new state commits, on `error` the caller keeps
the pre-transaction state (full rollback), which is exactly the semantics of
`prisma.$transaction` with a thrown exception. Quantities are integers
(`Int`), matching the integral quantities the system stores.
-/

namespace ERP

/-- One row of the inventory table, keyed by (warehouseId, productId).
Mirrors the Prisma `Inventory` model fields used by the ledger code. -/
structure Balance where
  quantity : Int
  availableQuantity : Int
  reservedQuantity : Int
deriving DecidableEq, Repr

/-- The inventory table: partial map from (warehouseId, productId) to a row. -/
abbrev Inv := String → String → Option Balance

/-- Table with no rows. -/
def emptyInv : Inv := fun _ _ => none

/-- Writing one row of the inventory table (Prisma create or update both end
with the row at this key holding exactly this data). -/
def setBal (inv : Inv) (w p : String) (b : Balance) : Inv :=
  fun w2 p2 => if w2 = w ∧ p2 = p then some b else inv w2 p2

/-- Error outcomes of the embedded services; one constructor per distinct
throw site in the TypeScript source (the Chinese message strings). -/
inductive Err where
  | warehouseNotFound
  | productNotFound
  | sameWarehouse
  | docNotFound
  | alreadyCompleted
  | alreadyCancelled
  | notEditable
  | inventoryNotFound
  | insufficientStock
deriving DecidableEq, Repr

/-- InventoryService.increaseInventoryInTransaction (part_007 lines 139-178):
findUnique on (warehouseId, productId); if absent, create the row with
quantity = availableQuantity = quantity and reservedQuantity = 0; otherwise
update quantity and availableQuantity by adding the argument. Never throws. -/
def increaseInventoryInTransaction (inv : Inv) (w p : String) (quantity : Int) : Inv :=
  match inv w p with
  | none => setBal inv w p ⟨quantity, quantity, 0⟩
  | some existing =>
      setBal inv w p
        ⟨existing.quantity + quantity, existing.availableQuantity + quantity,
         existing.reservedQuantity⟩

/-- InventoryService.decreaseInventoryInTransaction (part_007 lines 221-256):
findUnique; throws when the row is absent, throws when
availableQuantity < quantity, otherwise subtracts quantity from both
quantity and availableQuantity. -/
def decreaseInventoryInTransaction (inv : Inv) (w p : String) (quantity : Int) :
    Except Err Inv :=
  match inv w p with
  | none => .error .inventoryNotFound
  | some existing =>
      if existing.availableQuantity < quantity then .error .insufficientStock
      else
        .ok (setBal inv w p
          ⟨existing.quantity - quantity, existing.availableQuantity - quantity,
           existing.reservedQuantity⟩)

/-- InventoryRepository.updateQuantity (part_003 lines 274-319): adds the
signed quantity to the stored quantity; availableQuantity is either the
explicit override or existing.availableQuantity + (quantity - (reservedQuantity ?? 0));
reservedQuantity is either the explicit override or kept. On a missing row it
creates one from quantity and the two optional arguments. -/
def updateQuantity (inv : Inv) (w p : String) (quantity : Int)
    (availableQuantityArg reservedQuantityArg : Option Int) : Inv :=
  match inv w p with
  | none =>
      setBal inv w p
        ⟨quantity, availableQuantityArg.getD quantity, reservedQuantityArg.getD 0⟩
  | some existing =>
      setBal inv w p
        ⟨existing.quantity + quantity,
         availableQuantityArg.getD
           (existing.availableQuantity + (quantity - reservedQuantityArg.getD 0)),
         reservedQuantityArg.getD existing.reservedQuantity⟩

/-- The ledger invariant of the spec, row by row:
quantity = availableQuantity + reservedQuantity for every stored row. -/
def InvOk (inv : Inv) : Prop :=
  ∀ w p b, inv w p = some b → b.quantity = b.availableQuantity + b.reservedQuantity

/-- Concrete inventory for the C1 counterexample: one row with
quantity 10, availableQuantity 5, reservedQuantity 5 (invariant holds). -/
def invC1 : Inv := setBal emptyInv "W" "P" ⟨10, 5, 5⟩

/-! Movement documents. Each Prisma document table keeps only the fields the
completion and update logic reads: warehouse references, status, line items.
Statuses are the string values the services write and test. -/

/-- Document status strings used by all four movement services. -/
inductive DocStatus where
  | draft
  | completed
  | cancelled
deriving DecidableEq, Repr

/-- A stock-in, stock-out or transfer line item: product and quantity. -/
structure MovementLine where
  productId : String
  quantity : Int
deriving DecidableEq, Repr

/-- A stock-check line item: book and actual quantities plus the stored
difference column written at creation and update time. -/
structure CheckLine where
  productId : String
  bookQuantity : Int
  actualQuantity : Int
  difference : Int
deriving DecidableEq, Repr

/-- StockIn row with its owned line items. -/
structure StockInDoc where
  warehouseId : String
  status : DocStatus
  items : List MovementLine
deriving DecidableEq, Repr

/-- StockOut row with its owned line items. -/
structure StockOutDoc where
  warehouseId : String
  status : DocStatus
  items : List MovementLine
deriving DecidableEq, Repr

/-- StockTransfer row with its owned line items. -/
structure StockTransferDoc where
  fromWarehouseId : String
  toWarehouseId : String
  status : DocStatus
  items : List MovementLine
deriving DecidableEq, Repr

/-- StockCheck row with its owned line items. -/
structure StockCheckDoc where
  warehouseId : String
  status : DocStatus
  items : List CheckLine
deriving DecidableEq, Repr

/-- The persisted state visible to the movement services: the inventory
table, the four document tables keyed by id, and the master data existence
predicates consulted by the reference checks. -/
structure DB where
  inv : Inv
  stockIns : String → Option StockInDoc
  stockOuts : String → Option StockOutDoc
  stockTransfers : String → Option StockTransferDoc
  stockChecks : String → Option StockCheckDoc
  warehouses : String → Bool
  products : String → Bool

/-- Writing one row of a document table. -/
def updDoc {α : Type} (f : String → Option α) (id : String) (a : α) :
    String → Option α :=
  fun i => if i = id then some a else f i

/-- A database with no rows and with every warehouse and product existing. -/
def emptyDB : DB where
  inv := emptyInv
  stockIns := fun _ => none
  stockOuts := fun _ => none
  stockTransfers := fun _ => none
  stockChecks := fun _ => none
  warehouses := fun _ => true
  products := fun _ => true

/-- Transaction commit: an ok result commits the new state, a thrown error
rolls the whole transaction back, so the caller keeps the old state. -/
def commitExcept (db : DB) (r : Except Err DB) : DB :=
  match r with
  | .ok db2 => db2
  | .error _ => db

/-- Per-line loop body of StockInService.completeStockIn (lines 353-360):
increase inventory for each item in stored order. -/
def applyInItems (inv : Inv) (w : String) : List MovementLine → Inv
  | [] => inv
  | item :: rest =>
      applyInItems (increaseInventoryInTransaction inv w item.productId item.quantity) w rest

/-- Per-line loop of StockOutService.completeStockOut (lines 485-492):
decrease inventory for each item; the first throw aborts the loop. -/
def applyOutItems (inv : Inv) (w : String) : List MovementLine → Except Err Inv
  | [] => .ok inv
  | item :: rest =>
      match decreaseInventoryInTransaction inv w item.productId item.quantity with
      | .error e => .error e
      | .ok inv2 => applyOutItems inv2 w rest

/-- Per-line loop of StockTransferService.completeStockTransfer (lines
589-605): decrease at the source warehouse then increase at the destination
warehouse, item by item. -/
def applyTransferItems (inv : Inv) (fromW toW : String) :
    List MovementLine → Except Err Inv
  | [] => .ok inv
  | item :: rest =>
      match decreaseInventoryInTransaction inv fromW item.productId item.quantity with
      | .error e => .error e
      | .ok inv2 =>
          applyTransferItems
            (increaseInventoryInTransaction inv2 toW item.productId item.quantity)
            fromW toW rest

/-- Per-line branch of StockCheckService.completeStockCheck (lines 307-325):
positive difference increases, negative difference decreases by its absolute
value, zero difference does nothing. -/
def checkItemEffect (inv : Inv) (w : String) (item : CheckLine) : Except Err Inv :=
  if item.difference > 0 then
    .ok (increaseInventoryInTransaction inv w item.productId item.difference)
  else if item.difference < 0 then
    decreaseInventoryInTransaction inv w item.productId |item.difference|
  else .ok inv

/-- Per-line loop of StockCheckService.completeStockCheck. -/
def applyCheckItems (inv : Inv) (w : String) : List CheckLine → Except Err Inv
  | [] => .ok inv
  | item :: rest =>
      match checkItemEffect inv w item with
      | .error e => .error e
      | .ok inv2 => applyCheckItems inv2 w rest

/-- StockInService.completeStockIn (lines 323-362): find, guard against
completed and cancelled, then in one transaction flip status and apply the
per-line increases. -/
def completeStockIn (db : DB) (id : String) : Except Err DB :=
  match db.stockIns id with
  | none => .error .docNotFound
  | some doc =>
      if doc.status = .completed then .error .alreadyCompleted
      else if doc.status = .cancelled then .error .alreadyCancelled
      else
        .ok { db with
          stockIns := updDoc db.stockIns id { doc with status := .completed },
          inv := applyInItems db.inv doc.warehouseId doc.items }

/-- StockOutService.completeStockOut (part_006 lines 455-494). -/
def completeStockOut (db : DB) (id : String) : Except Err DB :=
  match db.stockOuts id with
  | none => .error .docNotFound
  | some doc =>
      if doc.status = .completed then .error .alreadyCompleted
      else if doc.status = .cancelled then .error .alreadyCancelled
      else
        match applyOutItems db.inv doc.warehouseId doc.items with
        | .error e => .error e
        | .ok inv2 =>
            .ok { db with
              stockOuts := updDoc db.stockOuts id { doc with status := .completed },
              inv := inv2 }

/-- StockTransferService.completeStockTransfer (part_007 lines 559-607). -/
def completeStockTransfer (db : DB) (id : String) : Except Err DB :=
  match db.stockTransfers id with
  | none => .error .docNotFound
  | some doc =>
      if doc.status = .completed then .error .alreadyCompleted
      else if doc.status = .cancelled then .error .alreadyCancelled
      else
        match applyTransferItems db.inv doc.fromWarehouseId doc.toWarehouseId doc.items with
        | .error e => .error e
        | .ok inv2 =>
            .ok { db with
              stockTransfers := updDoc db.stockTransfers id { doc with status := .completed },
              inv := inv2 }

/-- Reference check used by create and update: when a warehouse id was
supplied, it must exist. -/
def refCheckWarehouse (db : DB) : Option String → Except Err Unit
  | none => .ok ()
  | some w => if db.warehouses w then .ok () else .error .warehouseNotFound

/-- Reference check used by create and update: every supplied product id
must exist (the source loops and throws on the first missing product). -/
def refCheckProductIds (db : DB) : Option (List String) → Except Err Unit
  | none => .ok ()
  | some pids => if pids.all db.products then .ok () else .error .productNotFound

/-- Input of StockInService.createStockIn, restricted to the fields the
verified logic reads. -/
structure StockInCreateInput where
  warehouseId : String
  items : List MovementLine
deriving DecidableEq, Repr

/-- StockInService.createStockIn (lines 184-238): validate references, then
persist the document with status draft and the given line items. The
generated id and number are external to the stored row. -/
def createStockIn (db : DB) (input : StockInCreateInput) : Except Err StockInDoc :=
  match refCheckWarehouse db (some input.warehouseId) with
  | .error e => .error e
  | .ok _ =>
      match refCheckProductIds db (some (input.items.map (fun i => i.productId))) with
      | .error e => .error e
      | .ok _ => .ok { warehouseId := input.warehouseId, status := .draft, items := input.items }

/-- One input line of a stock check before the difference is computed. -/
structure CheckItemInput where
  productId : String
  bookQuantity : Int
  actualQuantity : Int
deriving DecidableEq, Repr

/-- Input of StockCheckService.createStockCheck, restricted to the fields
the verified logic reads. -/
structure StockCheckCreateInput where
  warehouseId : String
  items : List CheckItemInput
deriving DecidableEq, Repr

/-- The difference computation shared by createStockCheck (lines 148-151)
and updateStockCheck (lines 232-237): difference = actual - book, stored on
the line. -/
def checkItemsWithDifference (items : List CheckItemInput) : List CheckLine :=
  items.map (fun i =>
    ⟨i.productId, i.bookQuantity, i.actualQuantity, i.actualQuantity - i.bookQuantity⟩)

/-- StockCheckService.createStockCheck (lines 127-185). -/
def createStockCheck (db : DB) (input : StockCheckCreateInput) : Except Err StockCheckDoc :=
  match refCheckWarehouse db (some input.warehouseId) with
  | .error e => .error e
  | .ok _ =>
      match refCheckProductIds db (some (input.items.map (fun i => i.productId))) with
      | .error e => .error e
      | .ok _ =>
          .ok { warehouseId := input.warehouseId, status := .draft,
                items := checkItemsWithDifference input.items }

/-- Partial update input for stock-in and stock-out documents. -/
structure MovementUpdateInput where
  warehouseId : Option String
  items : Option (List MovementLine)
deriving DecidableEq, Repr

/-- StockInService.updateStockIn (lines 243-318): find, guard against
completed and cancelled, validate any supplied references, then replace the
supplied fields; supplied items replace the full line set. -/
def updateStockIn (db : DB) (id : String) (data : MovementUpdateInput) : Except Err DB :=
  match db.stockIns id with
  | none => .error .docNotFound
  | some doc =>
      if doc.status = .completed then .error .notEditable
      else if doc.status = .cancelled then .error .notEditable
      else
        match refCheckWarehouse db data.warehouseId with
        | .error e => .error e
        | .ok _ =>
            match refCheckProductIds db (data.items.map (fun its => its.map (fun i => i.productId))) with
            | .error e => .error e
            | .ok _ =>
                .ok { db with
                  stockIns := updDoc db.stockIns id
                    { doc with
                      warehouseId := data.warehouseId.getD doc.warehouseId,
                      items := data.items.getD doc.items } }

/-- StockOutService.updateStockOut (part_006 lines 375-450), same shape as
updateStockIn on the stock-out table. -/
def updateStockOut (db : DB) (id : String) (data : MovementUpdateInput) : Except Err DB :=
  match db.stockOuts id with
  | none => .error .docNotFound
  | some doc =>
      if doc.status = .completed then .error .notEditable
      else if doc.status = .cancelled then .error .notEditable
      else
        match refCheckWarehouse db data.warehouseId with
        | .error e => .error e
        | .ok _ =>
            match refCheckProductIds db (data.items.map (fun its => its.map (fun i => i.productId))) with
            | .error e => .error e
            | .ok _ =>
                .ok { db with
                  stockOuts := updDoc db.stockOuts id
                    { doc with
                      warehouseId := data.warehouseId.getD doc.warehouseId,
                      items := data.items.getD doc.items } }

/-- Partial update input for transfer documents. -/
structure TransferUpdateInput where
  fromWarehouseId : Option String
  toWarehouseId : Option String
  items : Option (List MovementLine)
deriving DecidableEq, Repr

/-- Warehouse block of StockTransferService.updateStockTransfer (part_007
lines 477-499): run only when a source or destination id was supplied;
checks existence of each supplied id, then rejects equal final source and
destination. -/
def transferWarehouseCheck (db : DB) (doc : StockTransferDoc)
    (fromIn toIn : Option String) : Except Err Unit :=
  match fromIn, toIn with
  | none, none => .ok ()
  | _, _ =>
      match refCheckWarehouse db fromIn with
      | .error e => .error e
      | .ok _ =>
          match refCheckWarehouse db toIn with
          | .error e => .error e
          | .ok _ =>
              if fromIn.getD doc.fromWarehouseId = toIn.getD doc.toWarehouseId then
                .error .sameWarehouse
              else .ok ()

/-- StockTransferService.updateStockTransfer (part_007 lines 462-554). -/
def updateStockTransfer (db : DB) (id : String) (data : TransferUpdateInput) :
    Except Err DB :=
  match db.stockTransfers id with
  | none => .error .docNotFound
  | some doc =>
      if doc.status = .completed then .error .notEditable
      else if doc.status = .cancelled then .error .notEditable
      else
        match transferWarehouseCheck db doc data.fromWarehouseId data.toWarehouseId with
        | .error e => .error e
        | .ok _ =>
            match refCheckProductIds db (data.items.map (fun its => its.map (fun i => i.productId))) with
            | .error e => .error e
            | .ok _ =>
                .ok { db with
                  stockTransfers := updDoc db.stockTransfers id
                    { doc with
                      fromWarehouseId := data.fromWarehouseId.getD doc.fromWarehouseId,
                      toWarehouseId := data.toWarehouseId.getD doc.toWarehouseId,
                      items := data.items.getD doc.items } }

/-- Partial update input for stock-check documents. -/
structure CheckUpdateInput where
  warehouseId : Option String
  items : Option (List CheckItemInput)
deriving DecidableEq, Repr

/-- StockCheckService.updateStockCheck (lines 190-272): supplied items are
replaced wholesale with freshly computed differences. -/
def updateStockCheck (db : DB) (id : String) (data : CheckUpdateInput) : Except Err DB :=
  match db.stockChecks id with
  | none => .error .docNotFound
  | some doc =>
      if doc.status = .completed then .error .notEditable
      else if doc.status = .cancelled then .error .notEditable
      else
        match refCheckWarehouse db data.warehouseId with
        | .error e => .error e
        | .ok _ =>
            match refCheckProductIds db (data.items.map (fun its => its.map (fun i => i.productId))) with
            | .error e => .error e
            | .ok _ =>
                .ok { db with
                  stockChecks := updDoc db.stockChecks id
                    { doc with
                      warehouseId := data.warehouseId.getD doc.warehouseId,
                      items := (data.items.map checkItemsWithDifference).getD doc.items } }

/-- StockCheckService.completeStockCheck (lines 277-327). -/
def completeStockCheck (db : DB) (id : String) : Except Err DB :=
  match db.stockChecks id with
  | none => .error .docNotFound
  | some doc =>
      if doc.status = .completed then .error .alreadyCompleted
      else if doc.status = .cancelled then .error .alreadyCancelled
      else
        match applyCheckItems db.inv doc.warehouseId doc.items with
        | .error e => .error e
        | .ok inv2 =>
            .ok { db with
              stockChecks := updDoc db.stockChecks id { doc with status := .completed },
              inv := inv2 }

/-- Modelled from the spec: applyDelta(warehouseId, productId, delta) of
section 4.1, the operation the spec says stock-check completion uses. A
positive delta is treated as an increase, a negative delta as a decrease of
its absolute value with the same insufficiency check, and delta = 0 is a
no-op. Stated from the spec wording for the refinement comparison with
checkItemEffect. -/
def specApplyDelta (inv : Inv) (w p : String) (delta : Int) : Except Err Inv :=
  if 0 < delta then .ok (increaseInventoryInTransaction inv w p delta)
  else if delta < 0 then decreaseInventoryInTransaction inv w p |delta|
  else .ok inv

/-- Folding specApplyDelta over a list of (productId, delta) pairs, the spec
description of stock-check completion. -/
def applySpecDeltas (inv : Inv) (w : String) : List (String × Int) → Except Err Inv
  | [] => .ok inv
  | (p, d) :: rest =>
      match specApplyDelta inv w p d with
      | .error e => .error e
      | .ok inv2 => applySpecDeltas inv2 w rest

/-- Prefix test on strings, the Prisma startsWith filter used by the number
generators, embedded as a character-list prefix check. -/
def strStartsWith (s pre : String) : Bool :=
  pre.data.isPrefixOf s.data

/-- JavaScript String(n).padStart(3, the zero character): decimal digits of
n, left padded with zeros to length 3. -/
def pad3 (n : Nat) : String :=
  let s := toString n
  if s.length < 3 then String.mk (List.replicate (3 - s.length) '0') ++ s else s

/-- The count-then-format number generator shared by generateInNo,
generateOutNo, generateCheckNo, generateTransferNo and generateOrderNo:
count the existing documents whose number starts with the date-prefixed
stem, then append count + 1 zero padded to three digits. The clock read
(dateStr) is a parameter of the embedding. -/
def generateDocNo (existingNos : List String) (pfx dateStr : String) : String :=
  let count := (existingNos.filter (fun no => strStartsWith no (pfx ++ dateStr))).length
  pfx ++ dateStr ++ pad3 (count + 1)

/-- The two list fields StockCheckService.getStockChecks computes per
returned record. -/
structure StockCheckSummary where
  totalItems : Nat
  differenceItems : Nat
deriving DecidableEq, Repr

/-- Prisma findMany over the stock-check table with skip, take and an
include flag for the items relation: when items are not included, the
returned objects carry no loaded line items. -/
def stockCheckFindMany (docs : List StockCheckDoc) (skip take : Nat)
    (includeItems : Bool) : List (StockCheckDoc × Option (List CheckLine)) :=
  ((docs.drop skip).take take).map
    (fun d => (d, if includeItems then some d.items else none))

/-- The totalItems and differenceItems computation of getStockChecks (lines
79-80): length of the loaded items, defaulting to 0 when the relation was
not loaded, and the count of loaded items with nonzero difference,
defaulting to 0 likewise. -/
def summarize (itemsLoaded : Option (List CheckLine)) : StockCheckSummary where
  totalItems := (itemsLoaded.map List.length).getD 0
  differenceItems :=
    (itemsLoaded.map (fun its => (its.filter (fun i => i.difference != 0)).length)).getD 0

/-- StockCheckService.getStockChecks (lines 44-92): findMany with include
of the warehouse relation only, so includeItems is false, then the summary
projection per record. -/
def getStockChecks (docs : List StockCheckDoc) (page pageSize : Nat) :
    List StockCheckSummary :=
  (stockCheckFindMany docs ((page - 1) * pageSize) pageSize false).map
    (fun r => summarize r.2)

/-- A stock-out line that must make the decrease loop throw: either no
balance row exists for its product at the given warehouse, or the available
quantity is below the line quantity. -/
def insufficientLine (inv : Inv) (w : String) (item : MovementLine) : Bool :=
  match inv w item.productId with
  | none => true
  | some b => decide (b.availableQuantity < item.quantity)

/-- Statuses out of which the spec state machine has no transition. -/
def terminalStatus (s : DocStatus) : Prop := s = .completed ∨ s = .cancelled

/-! Concrete states used to instantiate the theorems below. -/

/-- Fixture: warehouse W1 holds 10 available units of P, one draft transfer
of 3 units of P from W1 to W2. -/
def dbC2 : DB :=
  { emptyDB with
    inv := setBal emptyInv "W1" "P" ⟨10, 10, 0⟩,
    stockTransfers := updDoc emptyDB.stockTransfers "t1" ⟨"W1", "W2", .draft, [⟨"P", 3⟩]⟩ }

/-- Fixture: warehouse W holds 5 available units of P, one draft stock-out
of 6 units of P. -/
def dbC3 : DB :=
  { emptyDB with
    inv := setBal emptyInv "W" "P" ⟨5, 5, 0⟩,
    stockOuts := updDoc emptyDB.stockOuts "o1" ⟨"W", .draft, [⟨"P", 6⟩]⟩ }

/-- Fixture: one draft stock-in of 10 units of P into warehouse W, empty
inventory. -/
def dbC4 : DB :=
  { emptyDB with
    stockIns := updDoc emptyDB.stockIns "d1" ⟨"W", .draft, [⟨"P", 10⟩]⟩ }

/-- Fixture: warehouse W holds (2, 1, 1) of P, one draft stock-in of 10
units of P. -/
def dbC6 : DB :=
  { emptyDB with
    inv := setBal emptyInv "W" "P" ⟨2, 1, 1⟩,
    stockIns := updDoc emptyDB.stockIns "d1" ⟨"W", .draft, [⟨"P", 10⟩]⟩ }

/-- Fixture: a completed stock-in document under id d1. -/
def dbC7 : DB :=
  { emptyDB with
    stockIns := updDoc emptyDB.stockIns "d1" ⟨"W", .completed, [⟨"P", 1⟩]⟩ }

/-! Helper lemmas about the embedding. -/

lemma setBal_same (inv : Inv) (w p : String) (b : Balance) :
    setBal inv w p b w p = some b := by
  simp [setBal]

lemma setBal_lookup (inv : Inv) (w p w2 p2 : String) (b : Balance) :
    setBal inv w p b w2 p2 = if w2 = w ∧ p2 = p then some b else inv w2 p2 := rfl

lemma invOk_setBal (inv : Inv) (w p : String) (b : Balance) (hinv : InvOk inv)
    (hb : b.quantity = b.availableQuantity + b.reservedQuantity) :
    InvOk (setBal inv w p b) := by
  intro w2 p2 b2 h
  rw [setBal_lookup] at h
  split at h
  · cases h; exact hb
  · exact hinv w2 p2 b2 h

lemma increase_none (inv : Inv) (w p : String) (q : Int) (h : inv w p = none) :
    increaseInventoryInTransaction inv w p q = setBal inv w p ⟨q, q, 0⟩ := by
  unfold increaseInventoryInTransaction; rw [h]

lemma increase_some (inv : Inv) (w p : String) (q : Int) (b : Balance)
    (h : inv w p = some b) :
    increaseInventoryInTransaction inv w p q =
      setBal inv w p ⟨b.quantity + q, b.availableQuantity + q, b.reservedQuantity⟩ := by
  unfold increaseInventoryInTransaction; rw [h]

lemma decrease_none (inv : Inv) (w p : String) (q : Int) (h : inv w p = none) :
    decreaseInventoryInTransaction inv w p q = .error .inventoryNotFound := by
  unfold decreaseInventoryInTransaction; rw [h]

lemma decrease_some (inv : Inv) (w p : String) (q : Int) (b : Balance)
    (h : inv w p = some b) :
    decreaseInventoryInTransaction inv w p q =
      if b.availableQuantity < q then .error .insufficientStock
      else .ok (setBal inv w p
        ⟨b.quantity - q, b.availableQuantity - q, b.reservedQuantity⟩) := by
  unfold decreaseInventoryInTransaction; rw [h]

lemma decrease_error_cases (inv : Inv) (w p : String) (q : Int) (e : Err)
    (h : decreaseInventoryInTransaction inv w p q = .error e) :
    e = .inventoryNotFound ∨ e = .insufficientStock := by
  cases hx : inv w p with
  | none => rw [decrease_none inv w p q hx] at h; cases h; exact Or.inl rfl
  | some ex =>
      rw [decrease_some inv w p q ex hx] at h
      by_cases hlt : ex.availableQuantity < q
      · rw [if_pos hlt] at h; cases h; exact Or.inr rfl
      · rw [if_neg hlt] at h; cases h

lemma decrease_ok_inv (inv : Inv) (w p : String) (q : Int) (inv2 : Inv)
    (h : decreaseInventoryInTransaction inv w p q = .ok inv2) :
    ∃ b, inv w p = some b ∧ ¬ b.availableQuantity < q ∧
      inv2 = setBal inv w p ⟨b.quantity - q, b.availableQuantity - q, b.reservedQuantity⟩ := by
  cases hx : inv w p with
  | none => rw [decrease_none inv w p q hx] at h; cases h
  | some ex =>
      rw [decrease_some inv w p q ex hx] at h
      by_cases hlt : ex.availableQuantity < q
      · rw [if_pos hlt] at h; cases h
      · rw [if_neg hlt] at h; cases h; exact ⟨ex, rfl, hlt, rfl⟩

lemma applyInItems_cons (inv : Inv) (w : String) (item : MovementLine)
    (rest : List MovementLine) :
    applyInItems inv w (item :: rest) =
      applyInItems (increaseInventoryInTransaction inv w item.productId item.quantity)
        w rest := rfl

lemma applyOutItems_step (inv : Inv) (w : String) (item : MovementLine)
    (rest : List MovementLine) :
    applyOutItems inv w (item :: rest) =
      match decreaseInventoryInTransaction inv w item.productId item.quantity with
      | .error e => .error e
      | .ok inv2 => applyOutItems inv2 w rest := rfl

lemma applyOutItems_cons_error (inv : Inv) (w : String) (item : MovementLine)
    (rest : List MovementLine) (e : Err)
    (h : decreaseInventoryInTransaction inv w item.productId item.quantity = .error e) :
    applyOutItems inv w (item :: rest) = .error e := by
  rw [applyOutItems_step, h]

lemma applyOutItems_cons_ok (inv : Inv) (w : String) (item : MovementLine)
    (rest : List MovementLine) (inv2 : Inv)
    (h : decreaseInventoryInTransaction inv w item.productId item.quantity = .ok inv2) :
    applyOutItems inv w (item :: rest) = applyOutItems inv2 w rest := by
  rw [applyOutItems_step, h]

lemma applyTransferItems_step (inv : Inv) (fromW toW : String) (item : MovementLine)
    (rest : List MovementLine) :
    applyTransferItems inv fromW toW (item :: rest) =
      match decreaseInventoryInTransaction inv fromW item.productId item.quantity with
      | .error e => .error e
      | .ok inv2 =>
          applyTransferItems
            (increaseInventoryInTransaction inv2 toW item.productId item.quantity)
            fromW toW rest := rfl

lemma applyTransferItems_cons_error (inv : Inv) (fromW toW : String)
    (item : MovementLine) (rest : List MovementLine) (e : Err)
    (h : decreaseInventoryInTransaction inv fromW item.productId item.quantity = .error e) :
    applyTransferItems inv fromW toW (item :: rest) = .error e := by
  rw [applyTransferItems_step, h]

lemma applyTransferItems_cons_ok (inv : Inv) (fromW toW : String)
    (item : MovementLine) (rest : List MovementLine) (inv2 : Inv)
    (h : decreaseInventoryInTransaction inv fromW item.productId item.quantity = .ok inv2) :
    applyTransferItems inv fromW toW (item :: rest) =
      applyTransferItems
        (increaseInventoryInTransaction inv2 toW item.productId item.quantity)
        fromW toW rest := by
  rw [applyTransferItems_step, h]

lemma applyCheckItems_step (inv : Inv) (w : String) (item : CheckLine)
    (rest : List CheckLine) :
    applyCheckItems inv w (item :: rest) =
      match checkItemEffect inv w item with
      | .error e => .error e
      | .ok inv2 => applyCheckItems inv2 w rest := rfl

lemma applyCheckItems_cons_error (inv : Inv) (w : String) (item : CheckLine)
    (rest : List CheckLine) (e : Err)
    (h : checkItemEffect inv w item = .error e) :
    applyCheckItems inv w (item :: rest) = .error e := by
  rw [applyCheckItems_step, h]

lemma applyCheckItems_cons_ok (inv : Inv) (w : String) (item : CheckLine)
    (rest : List CheckLine) (inv2 : Inv)
    (h : checkItemEffect inv w item = .ok inv2) :
    applyCheckItems inv w (item :: rest) = applyCheckItems inv2 w rest := by
  rw [applyCheckItems_step, h]

lemma completeStockIn_found (db : DB) (id : String) (doc : StockInDoc)
    (h : db.stockIns id = some doc) :
    completeStockIn db id =
      if doc.status = .completed then .error .alreadyCompleted
      else if doc.status = .cancelled then .error .alreadyCancelled
      else
        .ok { db with
          stockIns := updDoc db.stockIns id { doc with status := .completed },
          inv := applyInItems db.inv doc.warehouseId doc.items } := by
  unfold completeStockIn; rw [h]

lemma completeStockOut_found (db : DB) (id : String) (doc : StockOutDoc)
    (h : db.stockOuts id = some doc) :
    completeStockOut db id =
      if doc.status = .completed then .error .alreadyCompleted
      else if doc.status = .cancelled then .error .alreadyCancelled
      else
        match applyOutItems db.inv doc.warehouseId doc.items with
        | .error e => .error e
        | .ok inv2 =>
            .ok { db with
              stockOuts := updDoc db.stockOuts id { doc with status := .completed },
              inv := inv2 } := by
  unfold completeStockOut; rw [h]

lemma completeStockTransfer_found (db : DB) (id : String) (doc : StockTransferDoc)
    (h : db.stockTransfers id = some doc) :
    completeStockTransfer db id =
      if doc.status = .completed then .error .alreadyCompleted
      else if doc.status = .cancelled then .error .alreadyCancelled
      else
        match applyTransferItems db.inv doc.fromWarehouseId doc.toWarehouseId doc.items with
        | .error e => .error e
        | .ok inv2 =>
            .ok { db with
              stockTransfers := updDoc db.stockTransfers id { doc with status := .completed },
              inv := inv2 } := by
  unfold completeStockTransfer; rw [h]

lemma completeStockCheck_found (db : DB) (id : String) (doc : StockCheckDoc)
    (h : db.stockChecks id = some doc) :
    completeStockCheck db id =
      if doc.status = .completed then .error .alreadyCompleted
      else if doc.status = .cancelled then .error .alreadyCancelled
      else
        match applyCheckItems db.inv doc.warehouseId doc.items with
        | .error e => .error e
        | .ok inv2 =>
            .ok { db with
              stockChecks := updDoc db.stockChecks id { doc with status := .completed },
              inv := inv2 } := by
  unfold completeStockCheck; rw [h]

/-! Claim C1. -/

/-- C1 counterexample: the invariant quantity = availableQuantity +
reservedQuantity holds for a row (10, 5, 5), yet calling the repository
updateQuantity with quantity delta 0 and reservedQuantity argument 3 (and no
availableQuantity argument) leaves the row at (10, 2, 3), where 10 is not
2 + 3. The claim fails for updateQuantity with a supplied optional argument. -/
theorem c1_counterexample :
    InvOk invC1 ∧ ¬ InvOk (updateQuantity invC1 "W" "P" 0 none (some 3)) := by
  constructor
  · intro w p b h
    rw [invC1, setBal_lookup] at h
    split at h
    · cases h; norm_num
    · simp [emptyInv] at h
  · intro h
    have hrow : updateQuantity invC1 "W" "P" 0 none (some 3) "W" "P" =
        some ⟨10, 2, 3⟩ := by decide
    have := h "W" "P" ⟨10, 2, 3⟩ hrow
    simp at this

/-- C1 amended: the row invariant is preserved by
increaseInventoryInTransaction, by a successful
decreaseInventoryInTransaction, and by updateQuantity when neither optional
argument is supplied (the only way the movement services call it); a
supplied availableQuantity or reservedQuantity argument can break it. -/
theorem c1_theorem (inv : Inv) (w p : String) (q : Int) (hinv : InvOk inv) :
    InvOk (increaseInventoryInTransaction inv w p q) ∧
    (∀ inv2, decreaseInventoryInTransaction inv w p q = .ok inv2 → InvOk inv2) ∧
    InvOk (updateQuantity inv w p q none none) := by
  refine ⟨?_, ?_, ?_⟩
  · unfold increaseInventoryInTransaction
    cases hx : inv w p with
    | none => exact invOk_setBal _ _ _ _ hinv (by simp)
    | some ex =>
        have hex := hinv w p ex hx
        exact invOk_setBal _ _ _ _ hinv (by simp; omega)
  · intro inv2 h
    obtain ⟨b, hb, _, hinv2⟩ := decrease_ok_inv _ _ _ _ _ h
    have hex := hinv w p b hb
    subst hinv2
    exact invOk_setBal _ _ _ _ hinv (by simp; omega)
  · unfold updateQuantity
    cases hx : inv w p with
    | none => exact invOk_setBal _ _ _ _ hinv (by simp)
    | some ex =>
        have hex := hinv w p ex hx
        exact invOk_setBal _ _ _ _ hinv (by simp; omega)

/-- Witness for the amended C1 theorem at a concrete input. -/
theorem c1_theorem_witness :
    InvOk (increaseInventoryInTransaction emptyInv "W" "P" 5) ∧
    (∀ inv2, decreaseInventoryInTransaction emptyInv "W" "P" 5 = .ok inv2 → InvOk inv2) ∧
    InvOk (updateQuantity emptyInv "W" "P" 5 none none) :=
  c1_theorem emptyInv "W" "P" 5 (fun _ _ _ h => by simp [emptyInv] at h)

/-! Claim C2. -/

/-- C2: completing a draft transfer with the single line (P, q), where the
source row holds bFrom and the destination differs from the source, moves q
units: on sufficient availability the source row loses q from quantity and
availableQuantity, the destination row gains q (created as (q, q, 0) when
absent), and the document flips to completed, all in one committed state; on
insufficient availability the transaction throws insufficientStock, and any
thrown error commits nothing, leaving balances and the draft status as they
were. -/
theorem c2_theorem (db : DB) (id fromW toW P : String) (q : Int) (bFrom : Balance)
    (hdoc : db.stockTransfers id = some ⟨fromW, toW, .draft, [⟨P, q⟩]⟩)
    (hne : toW ≠ fromW)
    (hFrom : db.inv fromW P = some bFrom) :
    (q ≤ bFrom.availableQuantity →
      ∃ db2, completeStockTransfer db id = .ok db2 ∧
        db2.inv fromW P =
          some ⟨bFrom.quantity - q, bFrom.availableQuantity - q, bFrom.reservedQuantity⟩ ∧
        db2.inv toW P =
          some (match db.inv toW P with
            | none => (⟨q, q, 0⟩ : Balance)
            | some bTo => ⟨bTo.quantity + q, bTo.availableQuantity + q, bTo.reservedQuantity⟩) ∧
        db2.stockTransfers id = some ⟨fromW, toW, .completed, [⟨P, q⟩]⟩) ∧
    (bFrom.availableQuantity < q →
      completeStockTransfer db id = .error .insufficientStock) ∧
    (∀ e, completeStockTransfer db id = .error e →
      commitExcept db (completeStockTransfer db id) = db) := by
  refine ⟨?_, ?_, ?_⟩
  · intro hge
    have hnot : ¬ bFrom.availableQuantity < q := not_lt.mpr hge
    set bF2 : Balance :=
      ⟨bFrom.quantity - q, bFrom.availableQuantity - q, bFrom.reservedQuantity⟩ with hbF2
    set inv1 : Inv := setBal db.inv fromW P bF2 with hinv1
    have hdec : decreaseInventoryInTransaction db.inv fromW P q = .ok inv1 := by
      rw [decrease_some db.inv fromW P q bFrom hFrom, if_neg hnot]
    have happly : applyTransferItems db.inv fromW toW [⟨P, q⟩] =
        .ok (increaseInventoryInTransaction inv1 toW P q) := by
      rw [applyTransferItems_cons_ok db.inv fromW toW ⟨P, q⟩ [] inv1 hdec]
      rfl
    have hlook : inv1 toW P = db.inv toW P := by
      rw [hinv1, setBal_lookup]; simp [hne]
    have hcomp := completeStockTransfer_found db id _ hdoc
    rw [happly] at hcomp
    have hcomp2 : completeStockTransfer db id =
        .ok { db with
          stockTransfers := updDoc db.stockTransfers id ⟨fromW, toW, .completed, [⟨P, q⟩]⟩,
          inv := increaseInventoryInTransaction inv1 toW P q } := hcomp
    cases hTo : db.inv toW P with
    | none =>
        rw [increase_none inv1 toW P q (hlook.trans hTo)] at hcomp2
        refine ⟨_, hcomp2, ?_, ?_, ?_⟩
        · show setBal inv1 toW P ⟨q, q, 0⟩ fromW P = some bF2
          rw [setBal_lookup]
          simp [Ne.symm hne, hinv1, setBal_same]
        · show setBal inv1 toW P ⟨q, q, 0⟩ toW P = _
          rw [setBal_same]
        · show updDoc db.stockTransfers id ⟨fromW, toW, .completed, [⟨P, q⟩]⟩ id = _
          simp [updDoc]
    | some bTo =>
        rw [increase_some inv1 toW P q bTo (hlook.trans hTo)] at hcomp2
        refine ⟨_, hcomp2, ?_, ?_, ?_⟩
        · show setBal inv1 toW P
            ⟨bTo.quantity + q, bTo.availableQuantity + q, bTo.reservedQuantity⟩ fromW P =
            some bF2
          rw [setBal_lookup]
          simp [Ne.symm hne, hinv1, setBal_same]
        · show setBal inv1 toW P
            ⟨bTo.quantity + q, bTo.availableQuantity + q, bTo.reservedQuantity⟩ toW P = _
          rw [setBal_same]
        · show updDoc db.stockTransfers id ⟨fromW, toW, .completed, [⟨P, q⟩]⟩ id = _
          simp [updDoc]
  · intro hlt
    have hdec : decreaseInventoryInTransaction db.inv fromW P q =
        .error .insufficientStock := by
      rw [decrease_some db.inv fromW P q bFrom hFrom, if_pos hlt]
    have happly : applyTransferItems db.inv fromW toW [⟨P, q⟩] =
        .error .insufficientStock :=
      applyTransferItems_cons_error db.inv fromW toW ⟨P, q⟩ [] _ hdec
    rw [completeStockTransfer_found db id _ hdoc, happly]
    rfl
  · intro e he
    rw [he]
    rfl

/-- Witness for C2 at the spec example: 10 units at W1, transfer of 3 to an
empty W2 leaves 7 and 3. -/
theorem c2_witness :
    ∃ db2, completeStockTransfer dbC2 "t1" = .ok db2 ∧
      db2.inv "W1" "P" = some ⟨7, 7, 0⟩ ∧
      db2.inv "W2" "P" = some ⟨3, 3, 0⟩ ∧
      db2.stockTransfers "t1" = some ⟨"W1", "W2", .completed, [⟨"P", 3⟩]⟩ := by
  have h := (c2_theorem dbC2 "t1" "W1" "W2" "P" 3 ⟨10, 10, 0⟩ (by decide) (by decide)
    (by decide)).1 (by norm_num)
  obtain ⟨db2, h1, h2, h3, h4⟩ := h
  have hTo : dbC2.inv "W2" "P" = none := by decide
  rw [hTo] at h3
  refine ⟨db2, h1, ?_, ?_, h4⟩
  · norm_num at h2
    exact h2
  · exact h3

/-! Claim C3. -/

lemma insufficientLine_none (inv : Inv) (w : String) (item : MovementLine)
    (h : inv w item.productId = none) : insufficientLine inv w item = true := by
  unfold insufficientLine; rw [h]

lemma insufficientLine_some (inv : Inv) (w : String) (item : MovementLine) (b : Balance)
    (h : inv w item.productId = some b) :
    insufficientLine inv w item = decide (b.availableQuantity < item.quantity) := by
  unfold insufficientLine; rw [h]

/-- When every line quantity is positive and some line is insufficient
against the starting inventory, the stock-out loop throws one of its two
ledger errors: decreases only shrink availability, so the flagged line
cannot recover before it is reached. -/
lemma applyOutItems_insufficient (w : String) :
    ∀ (items : List MovementLine) (inv : Inv),
      (∀ i ∈ items, 0 < i.quantity) →
      (∃ i ∈ items, insufficientLine inv w i = true) →
      ∃ e, applyOutItems inv w items = .error e ∧
        (e = Err.inventoryNotFound ∨ e = Err.insufficientStock) := by
  intro items
  induction items with
  | nil => intro inv _ hbad; simp at hbad
  | cons i rest ih =>
      intro inv hpos hbad
      cases hdec : decreaseInventoryInTransaction inv w i.productId i.quantity with
      | error e =>
          exact ⟨e, applyOutItems_cons_error inv w i rest e hdec,
            decrease_error_cases _ _ _ _ _ hdec⟩
      | ok inv2 =>
          rw [applyOutItems_cons_ok inv w i rest inv2 hdec]
          obtain ⟨b, hb, hble, hinv2⟩ := decrease_ok_inv _ _ _ _ _ hdec
          obtain ⟨j, hj, hbadj⟩ := hbad
          rcases List.mem_cons.mp hj with hji | hjrest
          · exfalso
            subst hji
            rw [insufficientLine_some inv w j b hb] at hbadj
            simp at hbadj
            exact hble hbadj
          · apply ih inv2 (fun x hx => hpos x (List.mem_cons_of_mem _ hx))
            refine ⟨j, hjrest, ?_⟩
            subst hinv2
            by_cases hpe : j.productId = i.productId
            · have hlook : setBal inv w i.productId
                  ⟨b.quantity - i.quantity, b.availableQuantity - i.quantity,
                   b.reservedQuantity⟩ w j.productId =
                  some ⟨b.quantity - i.quantity, b.availableQuantity - i.quantity,
                        b.reservedQuantity⟩ := by
                rw [setBal_lookup]; simp [hpe]
              rw [insufficientLine_some _ w j _ hlook]
              have hiq := hpos i (List.mem_cons_self i rest)
              have hjb : inv w j.productId = some b := by rw [hpe]; exact hb
              rw [insufficientLine_some inv w j b hjb] at hbadj
              simp at hbadj ⊢
              omega
            · have hlook : setBal inv w i.productId
                  ⟨b.quantity - i.quantity, b.availableQuantity - i.quantity,
                   b.reservedQuantity⟩ w j.productId = inv w j.productId := by
                rw [setBal_lookup]; simp [hpe]
              cases hx : inv w j.productId with
              | none => exact insufficientLine_none _ _ _ (hlook.trans hx)
              | some bj =>
                  rw [insufficientLine_some _ w j bj (hlook.trans hx)]
                  rw [insufficientLine_some inv w j bj hx] at hbadj
                  exact hbadj

/-- C3: completing a draft stock-out that contains a line with no balance
row or with quantity above the available quantity throws one of the two
ledger errors of the decrease loop (the spec groups both messages under
InsufficientStock), and the rolled back transaction leaves the state, hence
every balance and the draft status, unchanged. Line quantities are positive
as the data model and the route validation require. -/
theorem c3_theorem (db : DB) (id : String) (doc : StockOutDoc)
    (hdoc : db.stockOuts id = some doc) (hdraft : doc.status = .draft)
    (hpos : ∀ i ∈ doc.items, 0 < i.quantity)
    (hbad : ∃ i ∈ doc.items, insufficientLine db.inv doc.warehouseId i = true) :
    ∃ e, completeStockOut db id = .error e ∧
      (e = Err.inventoryNotFound ∨ e = Err.insufficientStock) ∧
      commitExcept db (completeStockOut db id) = db := by
  obtain ⟨e, happ, hcase⟩ :=
    applyOutItems_insufficient doc.warehouseId doc.items db.inv hpos hbad
  have hco : completeStockOut db id = .error e := by
    rw [completeStockOut_found db id doc hdoc, hdraft, happ]
    rfl
  exact ⟨e, hco, hcase, by rw [hco]; rfl⟩

/-- Witness for C3 at the spec example: 5 available, stock-out of 6 fails
and commits nothing. -/
theorem c3_witness :
    ∃ e, completeStockOut dbC3 "o1" = .error e ∧
      (e = Err.inventoryNotFound ∨ e = Err.insufficientStock) ∧
      commitExcept dbC3 (completeStockOut dbC3 "o1") = dbC3 :=
  c3_theorem dbC3 "o1" ⟨"W", .draft, [⟨"P", 6⟩]⟩ (by decide) rfl (by decide)
    ⟨⟨"P", 6⟩, by decide, by decide⟩

/-! Claim C4. -/

/-- C4: completing a draft stock-in succeeds, stores the document as
completed and applies the per-line increases once; completing the same id
again throws alreadyCompleted and commits nothing, so the ledger effect is
applied exactly once; completing a cancelled document throws
alreadyCancelled without effect, and a missing id throws docNotFound. -/
theorem c4_theorem (db : DB) (id : String) :
    (∀ doc, db.stockIns id = some doc → doc.status = DocStatus.draft →
      ∃ db2, completeStockIn db id = .ok db2 ∧
        db2.stockIns id = some { doc with status := DocStatus.completed } ∧
        db2.inv = applyInItems db.inv doc.warehouseId doc.items ∧
        completeStockIn db2 id = .error .alreadyCompleted ∧
        commitExcept db2 (completeStockIn db2 id) = db2) ∧
    (∀ doc, db.stockIns id = some doc → doc.status = DocStatus.cancelled →
      completeStockIn db id = .error .alreadyCancelled ∧
      commitExcept db (completeStockIn db id) = db) ∧
    (db.stockIns id = none → completeStockIn db id = .error .docNotFound) := by
  refine ⟨?_, ?_, ?_⟩
  · intro doc hdoc hdraft
    have hok : completeStockIn db id =
        .ok { db with
          stockIns := updDoc db.stockIns id { doc with status := DocStatus.completed },
          inv := applyInItems db.inv doc.warehouseId doc.items } := by
      rw [completeStockIn_found db id doc hdoc, hdraft]
      rfl
    have hl : (updDoc db.stockIns id { doc with status := DocStatus.completed }) id =
        some { doc with status := DocStatus.completed } := by
      simp [updDoc]
    have hsecond : completeStockIn
        { db with
          stockIns := updDoc db.stockIns id { doc with status := DocStatus.completed },
          inv := applyInItems db.inv doc.warehouseId doc.items } id =
        .error .alreadyCompleted := by
      rw [completeStockIn_found _ id { doc with status := DocStatus.completed } hl]
      rfl
    exact ⟨_, hok, hl, rfl, hsecond, by rw [hsecond]; rfl⟩
  · intro doc hdoc hcanc
    have h1 : completeStockIn db id = .error .alreadyCancelled := by
      rw [completeStockIn_found db id doc hdoc, hcanc]
      rfl
    exact ⟨h1, by rw [h1]; rfl⟩
  · intro hnone
    unfold completeStockIn
    rw [hnone]

/-- Witness for C4 at a concrete draft stock-in. -/
theorem c4_witness :
    ∃ db2, completeStockIn dbC4 "d1" = .ok db2 ∧
      db2.stockIns "d1" = some ⟨"W", DocStatus.completed, [⟨"P", 10⟩]⟩ ∧
      db2.inv = applyInItems dbC4.inv "W" [⟨"P", 10⟩] ∧
      completeStockIn db2 "d1" = .error .alreadyCompleted ∧
      commitExcept db2 (completeStockIn db2 "d1") = db2 :=
  (c4_theorem dbC4 "d1").1 ⟨"W", DocStatus.draft, [⟨"P", 10⟩]⟩ (by decide) rfl

/-! Claim C5. -/

lemma createStockCheck_ok (db : DB) (input : StockCheckCreateInput) (doc : StockCheckDoc)
    (h : createStockCheck db input = .ok doc) :
    doc = ⟨input.warehouseId, .draft, checkItemsWithDifference input.items⟩ := by
  unfold createStockCheck at h
  cases hw : refCheckWarehouse db (some input.warehouseId) with
  | error e =>
      rw [hw] at h
      have h2 : (Except.error e : Except Err StockCheckDoc) = .ok doc := h
      cases h2
  | ok u =>
      rw [hw] at h
      cases hp : refCheckProductIds db (some (input.items.map (fun i => i.productId))) with
      | error e =>
          rw [hp] at h
          have h2 : (Except.error e : Except Err StockCheckDoc) = .ok doc := h
          cases h2
      | ok u2 =>
          rw [hp] at h
          have h2 : Except.ok
              (⟨input.warehouseId, .draft, checkItemsWithDifference input.items⟩ :
                StockCheckDoc) = .ok doc := h
          cases h2
          rfl

lemma updateStockCheck_found (db : DB) (id : String) (doc : StockCheckDoc)
    (data : CheckUpdateInput) (h : db.stockChecks id = some doc) :
    updateStockCheck db id data =
      if doc.status = .completed then .error .notEditable
      else if doc.status = .cancelled then .error .notEditable
      else
        match refCheckWarehouse db data.warehouseId with
        | .error e => .error e
        | .ok _ =>
            match refCheckProductIds db
                (data.items.map (fun its => its.map (fun i => i.productId))) with
            | .error e => .error e
            | .ok _ =>
                .ok { db with
                  stockChecks := updDoc db.stockChecks id
                    { doc with
                      warehouseId := data.warehouseId.getD doc.warehouseId,
                      items := (data.items.map checkItemsWithDifference).getD doc.items } } := by
  unfold updateStockCheck; rw [h]

lemma updateStockCheck_ok_items (db : DB) (id : String) (data : CheckUpdateInput)
    (db2 : DB) (its : List CheckItemInput) (doc2 : StockCheckDoc)
    (h : updateStockCheck db id data = .ok db2)
    (hits : data.items = some its)
    (hdoc2 : db2.stockChecks id = some doc2) :
    doc2.items = checkItemsWithDifference its := by
  cases hdoc : db.stockChecks id with
  | none =>
      unfold updateStockCheck at h
      rw [hdoc] at h
      have h2 : (Except.error Err.docNotFound : Except Err DB) = .ok db2 := h
      cases h2
  | some doc =>
      rw [updateStockCheck_found db id doc data hdoc] at h
      by_cases hc : doc.status = .completed
      · rw [if_pos hc] at h; cases h
      · rw [if_neg hc] at h
        by_cases hx : doc.status = .cancelled
        · rw [if_pos hx] at h; cases h
        · rw [if_neg hx] at h
          cases hw : refCheckWarehouse db data.warehouseId with
          | error e =>
              rw [hw] at h
              have h2 : (Except.error e : Except Err DB) = .ok db2 := h
              cases h2
          | ok u =>
              rw [hw] at h
              cases hp : refCheckProductIds db
                  (data.items.map (fun its => its.map (fun i => i.productId))) with
              | error e =>
                  rw [hp] at h
                  have h2 : (Except.error e : Except Err DB) = .ok db2 := h
                  cases h2
              | ok u2 =>
                  rw [hp] at h
                  have h2 : Except.ok { db with
                      stockChecks := updDoc db.stockChecks id
                        { doc with
                          warehouseId := data.warehouseId.getD doc.warehouseId,
                          items := (data.items.map checkItemsWithDifference).getD doc.items } } =
                      .ok db2 := h
                  cases h2
                  have hl : (updDoc db.stockChecks id
                      { doc with
                        warehouseId := data.warehouseId.getD doc.warehouseId,
                        items := (data.items.map checkItemsWithDifference).getD doc.items }) id =
                      some { doc with
                        warehouseId := data.warehouseId.getD doc.warehouseId,
                        items := (data.items.map checkItemsWithDifference).getD doc.items } := by
                    simp [updDoc]
                  have := hl.symm.trans hdoc2
                  cases this
                  rw [hits]
                  rfl

lemma applyCheckItems_eq_spec (w : String) :
    ∀ (items : List CheckLine) (inv : Inv),
      applyCheckItems inv w items =
        applySpecDeltas inv w (items.map (fun i => (i.productId, i.difference))) := by
  intro items
  induction items with
  | nil => intro inv; rfl
  | cons i rest ih =>
      intro inv
      rw [applyCheckItems_step]
      have hstep2 : applySpecDeltas inv w
          ((i.productId, i.difference) :: rest.map (fun i => (i.productId, i.difference))) =
          match specApplyDelta inv w i.productId i.difference with
          | .error e => .error e
          | .ok inv2 =>
              applySpecDeltas inv2 w (rest.map (fun i => (i.productId, i.difference))) := rfl
      rw [List.map_cons, hstep2]
      cases hres : specApplyDelta inv w i.productId i.difference with
      | error e =>
          rw [show checkItemEffect inv w i =
            specApplyDelta inv w i.productId i.difference from rfl, hres]
      | ok inv2 =>
          rw [show checkItemEffect inv w i =
            specApplyDelta inv w i.productId i.difference from rfl, hres]
          exact ih inv2

/-- C5: stock-check lines store difference = actualQuantity - bookQuantity,
computed by createStockCheck and recomputed by updateStockCheck when items
are supplied; completion applies exactly that stored signed delta per line,
since the per-line branch of completeStockCheck equals the applyDelta
operation the spec describes (positive increases, negative decreases by the
absolute value with the insufficiency check, zero does nothing), and the
whole completion is the fold of that operation over the stored lines. -/
theorem c5_theorem :
    (∀ db input doc, createStockCheck db input = .ok doc →
      doc.items = checkItemsWithDifference input.items) ∧
    (∀ db id data db2 its doc2, updateStockCheck db id data = .ok db2 →
      data.items = some its → db2.stockChecks id = some doc2 →
      doc2.items = checkItemsWithDifference its) ∧
    (∀ inv w item, checkItemEffect inv w item =
      specApplyDelta inv w item.productId item.difference) ∧
    (∀ inv w items, applyCheckItems inv w items =
      applySpecDeltas inv w (items.map (fun i => (i.productId, i.difference)))) ∧
    (∀ db id doc, db.stockChecks id = some doc → doc.status = DocStatus.draft →
      completeStockCheck db id =
        match applySpecDeltas db.inv doc.warehouseId
            (doc.items.map (fun i => (i.productId, i.difference))) with
        | .error e => .error e
        | .ok inv2 =>
            .ok { db with
              stockChecks := updDoc db.stockChecks id { doc with status := DocStatus.completed },
              inv := inv2 }) := by
  refine ⟨?_, ?_, ?_, ?_, ?_⟩
  · intro db input doc h
    rw [createStockCheck_ok db input doc h]
  · intro db id data db2 its doc2 h hits hdoc2
    exact updateStockCheck_ok_items db id data db2 its doc2 h hits hdoc2
  · intro inv w item
    rfl
  · intro inv w items
    exact applyCheckItems_eq_spec w items inv
  · intro db id doc hdoc hdraft
    rw [completeStockCheck_found db id doc hdoc, hdraft,
      applyCheckItems_eq_spec doc.warehouseId doc.items db.inv]
    rfl

/-- Witness for C5 at the spec example: book 20, actual 17 gives stored
difference -3, and the completion branch for that line is applyDelta
with delta -3. -/
theorem c5_witness :
    ([⟨"P", 20, 17, -3⟩] : List CheckLine) = checkItemsWithDifference [⟨"P", 20, 17⟩] ∧
    checkItemEffect emptyInv "W" ⟨"P", 20, 17, -3⟩ =
      specApplyDelta emptyInv "W" "P" (-3) :=
  ⟨c5_theorem.1 emptyDB ⟨"W", [⟨"P", 20, 17⟩]⟩ ⟨"W", .draft, [⟨"P", 20, 17, -3⟩]⟩ rfl,
   c5_theorem.2.2.1 emptyInv "W" ⟨"P", 20, 17, -3⟩⟩

/-! Claim C6. -/

lemma createStockIn_ok (db : DB) (input : StockInCreateInput) (doc : StockInDoc)
    (h : createStockIn db input = .ok doc) :
    doc = ⟨input.warehouseId, .draft, input.items⟩ := by
  unfold createStockIn at h
  cases hw : refCheckWarehouse db (some input.warehouseId) with
  | error e =>
      rw [hw] at h
      have h2 : (Except.error e : Except Err StockInDoc) = .ok doc := h
      cases h2
  | ok u =>
      rw [hw] at h
      cases hp : refCheckProductIds db (some (input.items.map (fun i => i.productId))) with
      | error e =>
          rw [hp] at h
          have h2 : (Except.error e : Except Err StockInDoc) = .ok doc := h
          cases h2
      | ok u2 =>
          rw [hp] at h
          have h2 : Except.ok
              (⟨input.warehouseId, .draft, input.items⟩ : StockInDoc) = .ok doc := h
          cases h2
          rfl

/-- C6: a stock-in created with the single line (P, q), q positive, then
completed, adds exactly q to the quantity and availableQuantity of the
(warehouse, P) row; when no row existed, the row is created as
quantity = availableQuantity = q with reservedQuantity = 0. -/
theorem c6_theorem (db db1 : DB) (input : StockInCreateInput) (P : String) (q : Int)
    (doc : StockInDoc) (id : String) (hq : 0 < q)
    (hitems : input.items = [⟨P, q⟩])
    (hcreate : createStockIn db input = .ok doc)
    (hstored : db1.stockIns id = some doc) :
    ∃ db2, completeStockIn db1 id = .ok db2 ∧
      (∀ b, db1.inv input.warehouseId P = some b →
        db2.inv input.warehouseId P =
          some ⟨b.quantity + q, b.availableQuantity + q, b.reservedQuantity⟩) ∧
      (db1.inv input.warehouseId P = none →
        db2.inv input.warehouseId P = some ⟨q, q, 0⟩) := by
  have hdocEq := createStockIn_ok db input doc hcreate
  subst hdocEq
  rw [hitems] at hstored
  have hok : completeStockIn db1 id =
      .ok { db1 with
        stockIns := updDoc db1.stockIns id ⟨input.warehouseId, .completed, [⟨P, q⟩]⟩,
        inv := applyInItems db1.inv input.warehouseId [⟨P, q⟩] } := by
    rw [completeStockIn_found db1 id _ hstored]
    rfl
  refine ⟨_, hok, ?_, ?_⟩
  · intro b hb
    show increaseInventoryInTransaction db1.inv input.warehouseId P q
        input.warehouseId P = _
    rw [increase_some db1.inv input.warehouseId P q b hb, setBal_same]
  · intro hnone
    show increaseInventoryInTransaction db1.inv input.warehouseId P q
        input.warehouseId P = _
    rw [increase_none db1.inv input.warehouseId P q hnone, setBal_same]

/-- Witness for C6: (2, 1, 1) at (W, P), stock-in of 10 gives (12, 11, 1). -/
theorem c6_witness :
    ∃ db2, completeStockIn dbC6 "d1" = .ok db2 ∧
      db2.inv "W" "P" = some ⟨12, 11, 1⟩ := by
  obtain ⟨db2, hok, hsome, _⟩ :=
    c6_theorem emptyDB dbC6 ⟨"W", [⟨"P", 10⟩]⟩ "P" 10 ⟨"W", .draft, [⟨"P", 10⟩]⟩ "d1"
      (by norm_num) rfl rfl (by decide)
  refine ⟨db2, hok, ?_⟩
  have h := hsome ⟨2, 1, 1⟩ (by decide)
  norm_num at h
  exact h

/-! Claim C7. -/

lemma updateStockIn_found (db : DB) (id : String) (doc : StockInDoc)
    (data : MovementUpdateInput) (h : db.stockIns id = some doc) :
    updateStockIn db id data =
      if doc.status = .completed then .error .notEditable
      else if doc.status = .cancelled then .error .notEditable
      else
        match refCheckWarehouse db data.warehouseId with
        | .error e => .error e
        | .ok _ =>
            match refCheckProductIds db
                (data.items.map (fun its => its.map (fun i => i.productId))) with
            | .error e => .error e
            | .ok _ =>
                .ok { db with
                  stockIns := updDoc db.stockIns id
                    { doc with
                      warehouseId := data.warehouseId.getD doc.warehouseId,
                      items := data.items.getD doc.items } } := by
  unfold updateStockIn; rw [h]

lemma updateStockOut_found (db : DB) (id : String) (doc : StockOutDoc)
    (data : MovementUpdateInput) (h : db.stockOuts id = some doc) :
    updateStockOut db id data =
      if doc.status = .completed then .error .notEditable
      else if doc.status = .cancelled then .error .notEditable
      else
        match refCheckWarehouse db data.warehouseId with
        | .error e => .error e
        | .ok _ =>
            match refCheckProductIds db
                (data.items.map (fun its => its.map (fun i => i.productId))) with
            | .error e => .error e
            | .ok _ =>
                .ok { db with
                  stockOuts := updDoc db.stockOuts id
                    { doc with
                      warehouseId := data.warehouseId.getD doc.warehouseId,
                      items := data.items.getD doc.items } } := by
  unfold updateStockOut; rw [h]

lemma updateStockTransfer_found (db : DB) (id : String) (doc : StockTransferDoc)
    (data : TransferUpdateInput) (h : db.stockTransfers id = some doc) :
    updateStockTransfer db id data =
      if doc.status = .completed then .error .notEditable
      else if doc.status = .cancelled then .error .notEditable
      else
        match transferWarehouseCheck db doc data.fromWarehouseId data.toWarehouseId with
        | .error e => .error e
        | .ok _ =>
            match refCheckProductIds db
                (data.items.map (fun its => its.map (fun i => i.productId))) with
            | .error e => .error e
            | .ok _ =>
                .ok { db with
                  stockTransfers := updDoc db.stockTransfers id
                    { doc with
                      fromWarehouseId := data.fromWarehouseId.getD doc.fromWarehouseId,
                      toWarehouseId := data.toWarehouseId.getD doc.toWarehouseId,
                      items := data.items.getD doc.items } } := by
  unfold updateStockTransfer; rw [h]

/-- C7: once a movement document of any of the four types is completed or
cancelled, update throws notEditable (the DocumentNotEditable of the spec)
and complete throws alreadyCompleted or alreadyCancelled, so neither the
status nor the line items can ever change again: both statuses are terminal
in the document state machine. -/
theorem c7_theorem (db : DB) (id : String) :
    (∀ doc, db.stockIns id = some doc → terminalStatus doc.status →
      (∀ data, updateStockIn db id data = .error .notEditable) ∧
      (completeStockIn db id = .error .alreadyCompleted ∨
        completeStockIn db id = .error .alreadyCancelled)) ∧
    (∀ doc, db.stockOuts id = some doc → terminalStatus doc.status →
      (∀ data, updateStockOut db id data = .error .notEditable) ∧
      (completeStockOut db id = .error .alreadyCompleted ∨
        completeStockOut db id = .error .alreadyCancelled)) ∧
    (∀ doc, db.stockTransfers id = some doc → terminalStatus doc.status →
      (∀ data, updateStockTransfer db id data = .error .notEditable) ∧
      (completeStockTransfer db id = .error .alreadyCompleted ∨
        completeStockTransfer db id = .error .alreadyCancelled)) ∧
    (∀ doc, db.stockChecks id = some doc → terminalStatus doc.status →
      (∀ data, updateStockCheck db id data = .error .notEditable) ∧
      (completeStockCheck db id = .error .alreadyCompleted ∨
        completeStockCheck db id = .error .alreadyCancelled)) := by
  refine ⟨?_, ?_, ?_, ?_⟩
  · intro doc hdoc hterm
    rcases hterm with hs | hs
    · exact ⟨fun data => by rw [updateStockIn_found db id doc data hdoc, hs]; rfl,
        Or.inl (by rw [completeStockIn_found db id doc hdoc, hs]; rfl)⟩
    · exact ⟨fun data => by rw [updateStockIn_found db id doc data hdoc, hs]; rfl,
        Or.inr (by rw [completeStockIn_found db id doc hdoc, hs]; rfl)⟩
  · intro doc hdoc hterm
    rcases hterm with hs | hs
    · exact ⟨fun data => by rw [updateStockOut_found db id doc data hdoc, hs]; rfl,
        Or.inl (by rw [completeStockOut_found db id doc hdoc, hs]; rfl)⟩
    · exact ⟨fun data => by rw [updateStockOut_found db id doc data hdoc, hs]; rfl,
        Or.inr (by rw [completeStockOut_found db id doc hdoc, hs]; rfl)⟩
  · intro doc hdoc hterm
    rcases hterm with hs | hs
    · exact ⟨fun data => by rw [updateStockTransfer_found db id doc data hdoc, hs]; rfl,
        Or.inl (by rw [completeStockTransfer_found db id doc hdoc, hs]; rfl)⟩
    · exact ⟨fun data => by rw [updateStockTransfer_found db id doc data hdoc, hs]; rfl,
        Or.inr (by rw [completeStockTransfer_found db id doc hdoc, hs]; rfl)⟩
  · intro doc hdoc hterm
    rcases hterm with hs | hs
    · exact ⟨fun data => by rw [updateStockCheck_found db id doc data hdoc, hs]; rfl,
        Or.inl (by rw [completeStockCheck_found db id doc hdoc, hs]; rfl)⟩
    · exact ⟨fun data => by rw [updateStockCheck_found db id doc data hdoc, hs]; rfl,
        Or.inr (by rw [completeStockCheck_found db id doc hdoc, hs]; rfl)⟩

/-- Witness for C7 on a completed stock-in. -/
theorem c7_witness :
    updateStockIn dbC7 "d1" ⟨none, none⟩ = .error .notEditable ∧
    (completeStockIn dbC7 "d1" = .error .alreadyCompleted ∨
      completeStockIn dbC7 "d1" = .error .alreadyCancelled) := by
  have h := (c7_theorem dbC7 "d1").1 ⟨"W", .completed, [⟨"P", 1⟩]⟩ (by decide) (Or.inl rfl)
  exact ⟨h.1 ⟨none, none⟩, h.2⟩

/-! Claim C8. -/

lemma strStartsWith_append (a b : String) : strStartsWith (a ++ b) a = true := by
  unfold strStartsWith
  rw [String.data_append]
  simp [List.isPrefixOf_iff_prefix]

/-- C8: with n existing documents whose number starts with the stem
pfx ++ dateStr, the generator returns exactly pfx ++ dateStr ++ pad3 (n+1);
a second document generated after the first is committed sees n+1 matching
numbers and gets the strictly larger suffix n+2, so sequential same-day
creations get distinct, strictly increasing sequence suffixes. -/
theorem c8_theorem (existingNos : List String) (pfx dateStr : String) (n : Nat)
    (hcount :
      (existingNos.filter (fun no => strStartsWith no (pfx ++ dateStr))).length = n) :
    generateDocNo existingNos pfx dateStr = pfx ++ dateStr ++ pad3 (n + 1) ∧
    generateDocNo (existingNos ++ [generateDocNo existingNos pfx dateStr]) pfx dateStr =
      pfx ++ dateStr ++ pad3 (n + 2) ∧
    n + 1 < n + 2 := by
  have h1 : generateDocNo existingNos pfx dateStr = pfx ++ dateStr ++ pad3 (n + 1) := by
    simp only [generateDocNo]
    rw [hcount]
  refine ⟨h1, ?_, by omega⟩
  simp only [generateDocNo]
  rw [List.filter_append, List.length_append, hcount]
  simp [strStartsWith_append]

/-- Witness for C8 on a concrete same-day state with one matching number. -/
theorem c8_witness :
    generateDocNo ["IN20240101001", "PO20240101001"] "IN" "20240101" =
      "IN" ++ "20240101" ++ pad3 2 ∧
    generateDocNo
        (["IN20240101001", "PO20240101001"] ++
          [generateDocNo ["IN20240101001", "PO20240101001"] "IN" "20240101"])
        "IN" "20240101" =
      "IN" ++ "20240101" ++ pad3 3 ∧
    (1 : Nat) + 1 < 1 + 2 :=
  c8_theorem ["IN20240101001", "PO20240101001"] "IN" "20240101" 1 (by decide)

/-! Claim C9. -/

/-- C9: increaseInventoryInTransaction has no qty check at all: for every
integer quantity, including zero and negatives, it succeeds and
unconditionally adds the quantity to both quantity and availableQuantity,
creating the row as (q, q, 0) when absent; a negative increase therefore
removes stock with no insufficiency check. -/
theorem c9_theorem (inv : Inv) (w p : String) (q : Int) :
    (inv w p = none →
      increaseInventoryInTransaction inv w p q = setBal inv w p ⟨q, q, 0⟩) ∧
    (∀ b, inv w p = some b →
      increaseInventoryInTransaction inv w p q =
        setBal inv w p ⟨b.quantity + q, b.availableQuantity + q, b.reservedQuantity⟩) :=
  ⟨fun h => increase_none inv w p q h, fun b h => increase_some inv w p q b h⟩

/-- Witness for C9: an increase by -5 on a row holding 7 leaves 2, with no
error and no insufficiency check. -/
theorem c9_witness :
    increaseInventoryInTransaction (setBal emptyInv "W" "P" ⟨7, 7, 0⟩) "W" "P" (-5) =
      setBal (setBal emptyInv "W" "P" ⟨7, 7, 0⟩) "W" "P" ⟨2, 2, 0⟩ := by
  have h := (c9_theorem (setBal emptyInv "W" "P" ⟨7, 7, 0⟩) "W" "P" (-5)).2 ⟨7, 7, 0⟩
    (by decide)
  norm_num at h
  exact h

/-! Claim C10. -/

/-- C10: every record returned by the stock-check list operation reports
totalItems = 0 and differenceItems = 0, whatever lines the documents hold,
because the findMany call of getStockChecks includes only the warehouse
relation and never loads line items. -/
theorem c10_theorem (docs : List StockCheckDoc) (page pageSize : Nat)
    (s : StockCheckSummary) (hs : s ∈ getStockChecks docs page pageSize) :
    s.totalItems = 0 ∧ s.differenceItems = 0 := by
  unfold getStockChecks at hs
  obtain ⟨r, hr, hsum⟩ := List.mem_map.mp hs
  subst hsum
  unfold stockCheckFindMany at hr
  obtain ⟨d, hd, hrd⟩ := List.mem_map.mp hr
  subst hrd
  exact ⟨rfl, rfl⟩

/-- Witness for C10: a one-document state whose only document has one line
with nonzero difference still lists as (0, 0). -/
theorem c10_witness :
    ((⟨0, 0⟩ : StockCheckSummary) ∈
      getStockChecks [⟨"W", .draft, [⟨"P", 20, 17, -3⟩]⟩] 1 10) ∧
    (⟨0, 0⟩ : StockCheckSummary).totalItems = 0 ∧
    (⟨0, 0⟩ : StockCheckSummary).differenceItems = 0 :=
  ⟨by decide,
   c10_theorem [⟨"W", .draft, [⟨"P", 20, 17, -3⟩]⟩] 1 10 ⟨0, 0⟩ (by decide)⟩

end ERP
